import Mathlib

/-!
Verification of the libseal ASN.1 decoding core (BER/DER).

The data model below is a shallow embedding of src/asn1/data.hh and
src/asn1/parser_options.hh.  The implementation files of the asn1 library
(parser.cc, oid.cc/oid.hh, time.cc — listed in the build file but absent from
the sources at hand) are modelled from the specification; every such
definition is marked `Modelled from the spec:` in its doc comment.

Bytes are modelled as natural numbers (an input byte is < 256, though the
definitions are total on all of Nat); buffers are lists of bytes.  All reads
are by `List.take` / `List.drop` / pattern matching, so an out-of-bounds read
is representable only as an explicit failure value.
-/

namespace Libseal

/-- One of the four classes of values supported by the ASN.1 data model
(src/asn1/data.hh, enum Class). -/
inductive Class where
  | Universal
  | Application
  | ContextSpecific
  | Private
  deriving DecidableEq, Repr

/-- Form of ASN.1 encoding (src/asn1/parser_options.hh, enum Encoding). -/
inductive Encoding where
  | BER
  | DER
  deriving DecidableEq, Repr

/-- Parser options structure (src/asn1/parser_options.hh, struct ParserOptions). -/
structure ParserOptions where
  encoding : Encoding
  validate_utf8 : Bool := true
  treat_teletex_as_latin1 : Bool := false
  deriving DecidableEq, Repr

/-- Universal type numbers used by the model (src/asn1/data.hh, enum
UniversalType); the tag is the bottom five bits of the identifier octet. -/
def UTBoolean : Nat := 1

def UTOID : Nat := 6

def UTSequence : Nat := 16

def UTSet : Nat := 17

def UTUTCTime : Nat := 23

/-- Returns if a certain type has to be a constructed type
(src/asn1/data.hh, is_constructed_type). -/
def is_constructed_type (t : Nat) : Bool :=
  t == 16 || t == 17

/-- Returns if a certain type is a text type (src/asn1/data.hh, is_text_type):
UTF8String 12, NumericString 18, PrintableString 19, TeletexString 20,
ASCIIString 22, UniversalString 28, BMPString 30. -/
def is_text_type (t : Nat) : Bool :=
  t == 12 || t == 18 || t == 19 || t == 20 || t == 22 || t == 28 || t == 30

/-- Returns if a certain type can be represented as a constructed type in BER
(src/asn1/data.hh, can_be_constructed_type): Sequence/Set, the text types,
BitString 3 and OctetString 4. -/
def can_be_constructed_type (t : Nat) : Bool :=
  is_constructed_type t || is_text_type t || t == 3 || t == 4

/-- Representation of a value of a UTCTime field (src/asn1/data.hh, struct
UTCTime): the year is the Christian year number, widened from the two-digit
on-wire form; tzoffset is the offset from UTC in minutes. -/
structure UTCTime where
  year : Nat
  month : Nat
  day : Nat
  hour : Nat
  minute : Nat
  second : Nat
  has_seconds : Bool
  is_nonutc : Bool
  tzoffset : Int
  deriving DecidableEq, Repr

/-- Modelled from the spec: time.cc is absent.  Reads one ASCII decimal digit
byte; fails on a non-digit. -/
def readDigit (b : Nat) : Option Nat :=
  if 48 ≤ b ∧ b ≤ 57 then some (b - 48) else none

/-- Modelled from the spec: time.cc is absent.  Reads a fixed-width two-digit
decimal group, returning its value and the remaining bytes. -/
def read2 : List Nat → Option (Nat × List Nat)
  | a :: b :: rest =>
    match readDigit a, readDigit b with
    | some x, some y => some (x * 10 + y, rest)
    | _, _ => none
  | _ => none

/-- Modelled from the spec: time.cc is absent.  Best-effort variant of `read2`:
on failure the field is left 0, the input is not consumed and the success flag
is false, so later fields can still be scanned. -/
def read2d (s : List Nat) : Nat × List Nat × Bool :=
  match read2 s with
  | some (v, r) => (v, r, true)
  | none => (0, s, false)

/-- Modelled from the spec: time.cc is absent.  Scans the UTCTime terminator:
a literal Z (byte 90, UTC), or an explicit signed offset +hhmm / -hhmm
(bytes 43 / 45), which marks the value non-UTC.  Returns
(is_nonutc, tzoffset in minutes, remaining bytes, well-formed flag). -/
def parse_tz : List Nat → Bool × Int × List Nat × Bool
  | 90 :: rest => (false, 0, rest, true)
  | 43 :: rest =>
    match read2 rest with
    | some (h, r) =>
      match read2 r with
      | some (m, r2) => (true, ((h * 60 + m : Nat) : Int), r2, true)
      | none => (true, 0, r, false)
    | none => (true, 0, rest, false)
  | 45 :: rest =>
    match read2 rest with
    | some (h, r) =>
      match read2 r with
      | some (m, r2) => (true, -((h * 60 + m : Nat) : Int), r2, true)
      | none => (true, 0, r, false)
    | none => (true, 0, rest, false)
  | other => (false, 0, other, false)

/-- Modelled from the spec: time.cc (UTCTimeData::do_parse) is absent.
Fixed-width digit-group scanning of `YYMMDDhhmm[ss](Z|+hhmm|-hhmm)`.
Seconds are present exactly when two further digits follow the minutes.
The two-digit year is widened by the century-rollover rule YY ≥ 50 → 19YY,
else 20YY.  Field failures never raise: the structured result is always
returned together with a validity flag, which is false when a digit group or
the terminator is malformed, bytes trail the terminator, a field is out of
range (month 1..12, day 1..31, hour ≤ 23, minute ≤ 59, second ≤ 59), or, in
DER mode, seconds are missing or the terminator is not a literal Z. -/
def utc_do_parse (is_der : Bool) (body : List Nat) : UTCTime × Bool :=
  let (yy, s1, ok1) := read2d body
  let (mo, s2, ok2) := read2d s1
  let (dy, s3, ok3) := read2d s2
  let (hh, s4, ok4) := read2d s3
  let (mi, s5, ok5) := read2d s4
  let secPresent := (read2 s5).isSome
  let (ss, s6, _) := if secPresent then read2d s5 else (0, s5, true)
  let (nonutc, tzoff, s7, ok6) := parse_tz s6
  let year := if 50 ≤ yy then 1900 + yy else 2000 + yy
  let structOk := ok1 && ok2 && ok3 && ok4 && ok5 && ok6 && s7.isEmpty
  let rangeOk := decide (1 ≤ mo) && decide (mo ≤ 12) && decide (1 ≤ dy) &&
    decide (dy ≤ 31) && decide (hh ≤ 23) && decide (mi ≤ 59) && decide (ss ≤ 59)
  let derOk := !is_der || (secPresent && !nonutc)
  (⟨year, mo, dy, hh, mi, ss, secPresent, nonutc, tzoff⟩,
   structOk && rangeOk && derOk)

/-- Modelled from the spec: oid.cc/oid.hh are absent.  Unfolds the first
content byte of an OID into the first two arcs, per the folding rule
`arc0 * 40 + arc1`; per the spec examples, byte value 40 decodes as
(arc0 = 0, arc1 = 40) and byte value 42 as (arc0 = 1, arc1 = 2). -/
def oid_fold_decode (b0 : Nat) : Nat × Nat :=
  if b0 ≤ 40 then (0, b0)
  else if b0 ≤ 80 then (1, b0 - 40)
  else (2, b0 - 80)

mutual

/-- Modelled from the spec: oid.cc/oid.hh are absent.  Single-pass check of the
base-128 varint groups following the first OID content byte: a group must not
begin with the padding byte 0x80 (non-minimal encoding).  This function is the
state at a group boundary. -/
def varints_minimal : List Nat → Bool
  | [] => true
  | b :: rest =>
    (b != 128) && (if b < 128 then varints_minimal rest else varints_cont rest)

/-- Modelled from the spec: oid.cc/oid.hh are absent.  Continuation state of
`varints_minimal`, inside a multi-byte group (bytes other than the first may
be 0x80). -/
def varints_cont : List Nat → Bool
  | [] => true
  | b :: rest =>
    if b < 128 then varints_minimal rest else varints_cont rest

end

/-- Modelled from the spec: oid.cc/oid.hh are absent (OIDData::validate in
src/asn1/data.hh delegates to OID::validate).  Validation of the raw OID
content bytes: fails on an empty encoding, a first folded arc out of {0,1,2},
a second arc above 39 when the first arc is 0 or 1, or a varint group
beginning with 0x80. -/
def oid_validate (body : List Nat) : Bool :=
  match body with
  | [] => false
  | b0 :: rest =>
    let a := oid_fold_decode b0
    decide (a.1 ≤ 2) && (decide (2 ≤ a.1) || decide (a.2 ≤ 39)) &&
      varints_minimal rest

/-- Modelled from the spec: oid.cc/oid.hh are absent.  Accumulates base-128
varint groups into arc values; `inGroup` is true inside a multi-byte group,
`acc` the value accumulated so far.  Fails on a group beginning with the
padding byte 0x80 and on a trailing unterminated group. -/
def oid_decode_groups : List Nat → Nat → Bool → Option (List Nat)
  | [], _, inGroup => if inGroup then none else some []
  | b :: rest, acc, inGroup =>
    if inGroup = false ∧ b = 128 then none
    else if b < 128 then
      (oid_decode_groups rest 0 false).map (fun as => (acc * 128 + b) :: as)
    else oid_decode_groups rest (acc * 128 + (b - 128)) true

/-- Modelled from the spec: oid.cc/oid.hh are absent.  Decodes OID content
bytes into the arc sequence: the first byte is unfolded into the first two
arcs, the remaining bytes are base-128 varints. -/
def oid_decode (body : List Nat) : Option (List Nat) :=
  match body with
  | [] => none
  | b0 :: rest =>
    let a := oid_fold_decode b0
    (oid_decode_groups rest 0 false).map (fun arcs => a.1 :: a.2 :: arcs)

/-- Modelled from the spec: oid.cc/oid.hh are absent.  High (continuation)
bytes of the minimal base-128 varint encoding of a value. -/
def varint_hi (n : Nat) : List Nat :=
  if h : n = 0 then [] else varint_hi (n / 128) ++ [n % 128 + 128]
termination_by n
decreasing_by exact Nat.div_lt_self (Nat.pos_of_ne_zero h) (by norm_num)

/-- Modelled from the spec: oid.cc/oid.hh are absent.  Minimal base-128 varint
encoding of one arc: continuation bytes then the terminal byte. -/
def varint_encode (n : Nat) : List Nat :=
  varint_hi (n / 128) ++ [n % 128]

/-- Modelled from the spec: oid.cc/oid.hh are absent.  Encodes an arc sequence
back to OID content bytes, the inverse of `oid_decode`: the first two arcs are
folded into one byte, the rest are base-128 varints. -/
def oid_encode : List Nat → List Nat
  | arc0 :: arc1 :: rest =>
    (arc0 * 40 + arc1) :: rest.foldr (fun a acc => varint_encode a ++ acc) []
  | _ => []

/-- The tagged-value tree produced by the parser: the closed set of node kinds
of src/asn1/data.hh (Data, ConstructedData, BooleanData, OIDData, TextData,
UTCTimeData).  Every variant carries the tag, the class and the body view
(here: the list of content bytes); `plain` additionally records the
constructed flag for values no subclass handles, `utcTime` carries the fields
UTCTimeData computes at construction (is_der, the valid flag and the parsed
structure). -/
inductive Data where
  | plain (tag : Nat) (constructed : Bool) (data_class : Class) (body : List Nat)
  | constructedData (tag : Nat) (data_class : Class) (body : List Nat)
      (elements : List Data)
  | booleanData (tag : Nat) (data_class : Class) (body : List Nat)
  | oidData (tag : Nat) (data_class : Class) (body : List Nat)
  | textData (tag : Nat) (data_class : Class) (body : List Nat)
      (options : ParserOptions)
  | utcTimeData (tag : Nat) (data_class : Class) (body : List Nat)
      (is_der : Bool) (valid : Bool) (parsed : UTCTime)

/-- Body view of a node (src/asn1/data.hh, Data::get_body). -/
def Data.get_body : Data → List Nat
  | .plain _ _ _ b => b
  | .constructedData _ _ b _ => b
  | .booleanData _ _ b => b
  | .oidData _ _ b => b
  | .textData _ _ b _ => b
  | .utcTimeData _ _ b _ _ _ => b

/-- Boolean conversion of src/asn1/data.hh line 203,
`inline bool get() { return *body.cptr(); }`: the first content byte is
dereferenced with no length check, so the result is defined only when the
body is non-empty; `none` stands for the out-of-bounds read on an empty
body. -/
def BooleanData.get (body : List Nat) : Option Bool :=
  match body with
  | [] => none
  | b :: _ => some (b != 0)

/-- Modelled from the spec: parser.cc is absent.  The error taxonomy of the
parse engine: truncation/overrun, malformed structural encoding, and the
recursion limit, which is distinguished from the other errors. -/
inductive ParseError where
  | truncated
  | malformed
  | recursionLimit
  deriving DecidableEq, Repr

/-- Modelled from the spec: parser.cc is absent.  Class of the identifier
octet: its top two bits. -/
def class_of (ident : Nat) : Class :=
  match ident / 64 with
  | 0 => Class.Universal
  | 1 => Class.Application
  | 2 => Class.ContextSpecific
  | _ => Class.Private

/-- Big-endian value of a list of length bytes. -/
def beVal (l : List Nat) : Nat :=
  l.foldl (fun acc b => acc * 256 + b) 0

/-- Big-endian bytes of a value, most significant first, no leading zero. -/
def beBytes (n : Nat) : List Nat :=
  if h : n = 0 then [] else beBytes (n / 256) ++ [n % 256]
termination_by n
decreasing_by exact Nat.div_lt_self (Nat.pos_of_ne_zero h) (by norm_num)

/-- Minimal definite length encoding: short form for lengths up to 127, long
form (count byte with the top bit set, then big-endian length bytes)
otherwise. -/
def encodeLen (n : Nat) : List Nat :=
  if n ≤ 127 then [n] else (128 + (beBytes n).length) :: beBytes n

/-- A TLV unit with the given identifier octet and content bytes, using the
minimal definite length encoding. -/
def mkTLV (ident : Nat) (body : List Nat) : List Nat :=
  ident :: encodeLen body.length ++ body

/-- Nested empty SEQUENCEs: `mkNested n` is n constructed SEQUENCE headers
around an empty body. -/
def mkNested : Nat → List Nat
  | 0 => []
  | n + 1 => 48 :: encodeLen (mkNested n).length ++ mkNested n

/-- Modelled from the spec: parser.cc is absent.  Scans the content of an
indefinite-length value for its end-of-contents marker (tag 0x00, length
0x00), skipping complete nested TLV units and hence the end-of-contents
markers of nested indefinite-length children.  A nested definite-length unit
is skipped over its bounds-checked declared length; a nested
indefinite-length unit is skipped by recursively finding its own marker.
Returns the number of content bytes before the matching marker.  The `fuel`
argument is only a structural termination device: every recursive call is on
a list at least two bytes shorter, so the `eocScan` wrapper below always
supplies enough. -/
def eocScanF : Nat → List Nat → Option Nat
  | 0, _ => none
  | fuel + 1, input =>
    match input with
    | a :: lb :: rest =>
      if a = 0 ∧ lb = 0 then some 0
      else if lb < 128 then
        if lb ≤ rest.length then
          match eocScanF fuel (rest.drop lb) with
          | none => none
          | some m => some (2 + lb + m)
        else none
      else if lb = 128 then
        match eocScanF fuel rest with
        | none => none
        | some inner =>
          match eocScanF fuel (rest.drop (inner + 2)) with
          | none => none
          | some m => some (2 + (inner + 2) + m)
      else
        if lb - 128 ≤ rest.length ∧
            beVal (rest.take (lb - 128)) ≤ rest.length - (lb - 128) then
          match eocScanF fuel
              (rest.drop ((lb - 128) + beVal (rest.take (lb - 128)))) with
          | none => none
          | some m => some (2 + ((lb - 128) + beVal (rest.take (lb - 128))) + m)
        else none
    | _ => none

/-- Modelled from the spec: parser.cc is absent.  End-of-contents scan with
the fuel bound instantiated (see `eocScanF`). -/
def eocScan (input : List Nat) : Option Nat :=
  eocScanF (input.length + 1) input

/-- Modelled from the spec: parser.cc is absent.  Resolves the length of a TLV
unit whose first length octet is `lb` and whose subsequent bytes are `rest`:
short form (top bit clear, the octet is the length), long form (top bit set,
bottom seven bits count the big-endian length octets that follow), or the
indefinite marker 0x80, rejected as malformed under DER and resolved under
BER by scanning for the matching end-of-contents marker.  Every definite
declared length is checked against the remaining buffer before the body view
is taken — a declared length that exceeds the remaining bytes is the
truncation error, and no byte past the end is ever part of the view.
Returns the body view and the total size of the unit (header included). -/
def readLength (opts : ParserOptions) (lb : Nat) (rest : List Nat) :
    Except ParseError (List Nat × Nat) :=
  if lb < 128 then
    if rest.length < lb then .error .truncated
    else .ok (rest.take lb, 2 + lb)
  else if lb = 128 then
    if opts.encoding = Encoding.DER then .error .malformed
    else
      match eocScan rest with
      | none => .error .truncated
      | some clen => .ok (rest.take clen, 2 + clen + 2)
  else
    if rest.length < lb - 128 then .error .truncated
    else if rest.length - (lb - 128) < beVal (rest.take (lb - 128)) then
      .error .truncated
    else
      .ok ((rest.drop (lb - 128)).take (beVal (rest.take (lb - 128))),
        2 + (lb - 128) + beVal (rest.take (lb - 128)))

/-- Modelled from the spec: parser.cc is absent.  Dispatches the construction
of a non-recursing node by (class, tag, constructed) once the body view is
known.  A primitive universal Boolean is rejected as malformed in DER when
the content length is not exactly 1; OID, text and UTCTime values always
construct their nodes, their validation being a non-fatal queryable state;
every other value becomes a plain node carrying the undecoded body. -/
def mkPrim (opts : ParserOptions) (cls : Class) (constructed : Bool)
    (tag : Nat) (body : List Nat) : Except ParseError Data :=
  if (cls == Class.Universal) && !constructed && (tag == UTBoolean) then
    if (opts.encoding == Encoding.DER) && (body.length != 1) then
      .error .malformed
    else .ok (Data.booleanData tag cls body)
  else if (cls == Class.Universal) && !constructed && (tag == UTOID) then
    .ok (Data.oidData tag cls body)
  else if (cls == Class.Universal) && !constructed && is_text_type tag then
    .ok (Data.textData tag cls body opts)
  else if (cls == Class.Universal) && !constructed && (tag == UTUTCTime) then
    let r := utc_do_parse (opts.encoding == Encoding.DER) body
    .ok (Data.utcTimeData tag cls body (opts.encoding == Encoding.DER)
      r.2 r.1)
  else .ok (Data.plain tag constructed cls body)

mutual

/-- Modelled from the spec: parser.cc is absent.  Consumes exactly one TLV
unit from the front of `input` (failing if the view is empty or the unit is
malformed) and returns the decoded node together with the number of bytes
consumed.  The identifier octet gives the class (top two bits), the
constructed flag (bit 6) and the tag (bottom five bits); the multi-byte
high-tag-number form (tag bits 31) is explicitly rejected as unsupported.
The length is resolved by `readLength`, then construction is dispatched:
a constructed value is parsed recursively under the depth budget, and
exhausting that budget is the recursion-limit error, distinguished from the
malformed errors; everything else is dispatched by `mkPrim`.  The `fuel`
argument is only a structural termination device (one unit of fuel per
recursion step); the `parseOne` wrapper below always supplies enough. -/
def parseOneF : Nat → ParserOptions → Nat → List Nat →
    Except ParseError (Data × Nat)
  | _, _, _, [] => .error .malformed
  | _, _, _, [_] => .error .truncated
  | 0, _, _, _ :: _ :: _ => .error .malformed
  | fuel + 1, opts, depth, ident :: lb :: rest =>
    let cls := class_of ident
    let constructed := (ident / 32) % 2 == 1
    let tag := ident % 32
    if tag = 31 then .error .malformed
    else
      match readLength opts lb rest with
      | .error e => .error e
      | .ok (body, consumed) =>
        if constructed &&
            ((cls != Class.Universal) || can_be_constructed_type tag) then
          match depth with
          | 0 => .error .recursionLimit
          | d + 1 =>
            match parseAllF fuel opts d body with
            | .error e => .error e
            | .ok es => .ok (Data.constructedData tag cls body es, consumed)
        else
          match mkPrim opts cls constructed tag body with
          | .error e => .error e
          | .ok d => .ok (d, consumed)

/-- Modelled from the spec: parser.cc is absent.  Parses the body of a
constructed value as a sequence of TLV units until the view is exhausted,
continuing each time at the consumed-bytes offset the unit parse reports; any
unit failure aborts the whole sequence.  Fuel as in `parseOneF`. -/
def parseAllF : Nat → ParserOptions → Nat → List Nat →
    Except ParseError (List Data)
  | _, _, _, [] => .ok []
  | 0, _, _, _ :: _ => .error .malformed
  | fuel + 1, opts, depth, x :: xs =>
    match parseOneF fuel opts depth (x :: xs) with
    | .error e => .error e
    | .ok (d, k) =>
      match parseAllF fuel opts depth ((x :: xs).drop k) with
      | .error e => .error e
      | .ok ds => .ok (d :: ds)

end

/-- Modelled from the spec: parser.cc is absent.  The one-unit parse entry
point, `parse(view, options) -> Result<Node, ParseError>` plus the bytes
consumed, with the structural fuel bound instantiated: every recursion step
of `parseOneF`/`parseAllF` moves at least two bytes below the enclosing
view, so twice the input length plus one always suffices. -/
def parseOne (opts : ParserOptions) (depth : Nat) (input : List Nat) :
    Except ParseError (Data × Nat) :=
  parseOneF (2 * input.length + 1) opts depth input

/-- Modelled from the spec: parser.cc is absent.  Sequence-of-units parse with
the fuel bound instantiated (see `parseOne`). -/
def parseAll (opts : ParserOptions) (depth : Nat) (input : List Nat) :
    Except ParseError (List Data) :=
  parseAllF (2 * input.length + 1) opts depth input

/-- BER parser options with the defaults of src/asn1/parser_options.hh. -/
def berOpts : ParserOptions :=
  ⟨Encoding.BER, true, false⟩

/-- DER parser options with the defaults of src/asn1/parser_options.hh. -/
def derOpts : ParserOptions :=
  ⟨Encoding.DER, true, false⟩

/-- Positional phrasing of the non-minimal-varint condition, used to state
claims independently of the single-pass checker: some byte under 128 (a
terminal byte, hence a group boundary) is immediately followed by the byte
0x80. -/
def pairBad : List Nat → Bool
  | b :: c :: rest => (decide (b < 128) && (c == 128)) || pairBad (c :: rest)
  | _ => false

/-- Positional phrasing of "some varint group begins with the padding byte
0x80": either the very first group does, or a group following a terminal
byte does. -/
def hasBadGroupStart (l : List Nat) : Bool :=
  (l.head? == some 128) || pairBad l

theorem beVal_append (l : List Nat) (b : Nat) :
    beVal (l ++ [b]) = beVal l * 256 + b := by
  simp [beVal, List.foldl_append]

theorem beVal_beBytes (n : Nat) : beVal (beBytes n) = n := by
  induction n using Nat.strong_induction_on with
  | _ n ih =>
    rw [beBytes]
    by_cases h : n = 0
    · simp [h, beVal]
    · simp only [h, dite_false]
      rw [beVal_append, ih (n / 256) (Nat.div_lt_self (Nat.pos_of_ne_zero h) (by norm_num))]
      omega

theorem beBytes_ne_nil (n : Nat) (h : n ≠ 0) : beBytes n ≠ [] := by
  rw [beBytes]
  simp [h]

theorem readLength_short (opts : ParserOptions) (lb : Nat) (rest : List Nat)
    (hlb : lb ≤ 127) (hr : lb ≤ rest.length) :
    readLength opts lb rest = .ok (rest.take lb, 2 + lb) := by
  unfold readLength
  have h1 : lb < 128 := by omega
  simp [h1, Nat.not_lt.mpr hr]

theorem readLength_long (opts : ParserOptions) (body : List Nat)
    (h : 127 < body.length) :
    readLength opts (128 + (beBytes body.length).length)
        (beBytes body.length ++ body) =
      .ok (body, 2 + (beBytes body.length).length + body.length) := by
  have hnb : 0 < (beBytes body.length).length :=
    List.length_pos.mpr (beBytes_ne_nil body.length (by omega))
  unfold readLength
  have h1 : ¬ (128 + (beBytes body.length).length < 128) := by omega
  have h2 : ¬ (128 + (beBytes body.length).length = 128) := by omega
  have h3 : 128 + (beBytes body.length).length - 128 =
      (beBytes body.length).length := by omega
  rw [if_neg h1, if_neg h2, h3, List.take_left, List.drop_left, beVal_beBytes]
  have h4 : (beBytes body.length ++ body).length =
      (beBytes body.length).length + body.length := by simp
  rw [h4]
  have h5 : ¬ ((beBytes body.length).length + body.length <
      (beBytes body.length).length) := by omega
  have h6 : ¬ ((beBytes body.length).length + body.length -
      (beBytes body.length).length < body.length) := by omega
  rw [if_neg h5, if_neg h6, List.take_length]

theorem mkPrim_get_body (opts : ParserOptions) (cls : Class)
    (constructed : Bool) (tag : Nat) (body : List Nat) (d : Data) :
    mkPrim opts cls constructed tag body = .ok d → d.get_body = body := by
  unfold mkPrim
  split_ifs <;> intro h <;> (try simp at h) <;> (try subst h) <;> rfl

theorem mkPrim_ok (opts : ParserOptions) (cls : Class) (constructed : Bool)
    (tag : Nat) (body : List Nat)
    (h : cls = Class.Universal → constructed = false → tag = UTBoolean →
      opts.encoding = Encoding.DER → body.length = 1) :
    ∃ d, mkPrim opts cls constructed tag body = .ok d := by
  unfold mkPrim
  split_ifs with h1 h2
  case _ =>
    exfalso
    simp only [Bool.and_eq_true, beq_iff_eq, Bool.not_eq_eq_eq_not,
      Bool.not_true, bne_iff_ne, ne_eq] at h1 h2
    exact h2.2 (h h1.1.1 h1.1.2 h1.2 h2.1)
  all_goals exact ⟨_, rfl⟩

theorem parseOneF_mkTLV (fuel : Nat) (opts : ParserOptions) (depth : Nat)
    (t : Nat) (body : List Nat) :
    parseOneF (fuel + 1) opts depth (mkTLV t body) =
      (if t % 32 = 31 then .error .malformed
      else if ((t / 32) % 2 == 1) &&
          ((class_of t != Class.Universal) ||
            can_be_constructed_type (t % 32)) then
        match depth with
        | 0 => .error .recursionLimit
        | d + 1 =>
          match parseAllF fuel opts d body with
          | .error e => .error e
          | .ok es => .ok (Data.constructedData (t % 32) (class_of t) body es,
              1 + (encodeLen body.length).length + body.length)
      else
        match mkPrim opts (class_of t) ((t / 32) % 2 == 1) (t % 32) body with
        | .error e => .error e
        | .ok d =>
          .ok (d, 1 + (encodeLen body.length).length + body.length) :
        Except ParseError (Data × Nat)) := by
  by_cases hL : body.length ≤ 127
  · have hshape : mkTLV t body = t :: body.length :: body := by
      simp [mkTLV, encodeLen, hL]
    rw [hshape]
    simp only [parseOneF, readLength_short opts body.length body hL (le_refl _),
      List.take_length, encodeLen, hL, if_true, List.length_singleton]
  · have hgt : 127 < body.length := by omega
    have hshape : mkTLV t body =
        t :: (128 + (beBytes body.length).length) ::
          (beBytes body.length ++ body) := by
      simp [mkTLV, encodeLen, hL]
    rw [hshape]
    have harith : 2 + (beBytes body.length).length + body.length =
        1 + ((beBytes body.length).length + 1) + body.length := by omega
    simp only [parseOneF, readLength_long opts body hgt, harith, encodeLen,
      hL, if_false, List.length_cons]

theorem parseOneF_cons (fuel : Nat) (opts : ParserOptions) (depth : Nat)
    (ident lb : Nat) (rest : List Nat) :
    parseOneF (fuel + 1) opts depth (ident :: lb :: rest) =
      (if ident % 32 = 31 then .error .malformed
      else
        match readLength opts lb rest with
        | .error e => .error e
        | .ok (body, consumed) =>
          if ((ident / 32) % 2 == 1) &&
              ((class_of ident != Class.Universal) ||
                can_be_constructed_type (ident % 32)) then
            match depth with
            | 0 => .error .recursionLimit
            | d + 1 =>
              match parseAllF fuel opts d body with
              | .error e => .error e
              | .ok es =>
                .ok (Data.constructedData (ident % 32) (class_of ident)
                  body es, consumed)
          else
            match mkPrim opts (class_of ident) ((ident / 32) % 2 == 1)
                (ident % 32) body with
            | .error e => .error e
            | .ok d => .ok (d, consumed) :
          Except ParseError (Data × Nat)) :=
  rfl

theorem parseAllF_cons (fuel : Nat) (opts : ParserOptions) (depth : Nat)
    (x : Nat) (xs : List Nat) :
    parseAllF (fuel + 1) opts depth (x :: xs) =
      (match parseOneF fuel opts depth (x :: xs) with
      | .error e => .error e
      | .ok (d, k) =>
        match parseAllF fuel opts depth ((x :: xs).drop k) with
        | .error e => .error e
        | .ok ds => .ok (d :: ds) :
      Except ParseError (List Data)) :=
  rfl

theorem parseOne_def (opts : ParserOptions) (depth : Nat) (input : List Nat) :
    parseOne opts depth input =
      parseOneF (2 * input.length + 1) opts depth input :=
  rfl

/-- C1: for every input buffer in which a TLV unit declares a definite length
exceeding the number of bytes remaining (short form with fewer than `lb`
content bytes left, or long form whose length octets are missing or whose
big-endian value exceeds what is left), `parseOne` fails with the truncation
error and returns no node.  In this list model a read past the end of the
buffer is not even expressible: the body view is produced by `List.take`
only after the bounds check succeeds. -/
theorem claim_C1_truncation_rejected (opts : ParserOptions)
    (depth ident lb : Nat) (rest : List Nat) (htag : ident % 32 ≠ 31)
    (hlen : (lb < 128 ∧ rest.length < lb) ∨
      (128 < lb ∧ (rest.length < lb - 128 ∨
        rest.length - (lb - 128) < beVal (rest.take (lb - 128))))) :
    parseOne opts depth (ident :: lb :: rest) = .error .truncated := by
  have hrl : readLength opts lb rest = .error .truncated := by
    unfold readLength
    rcases hlen with ⟨h1, h2⟩ | ⟨h1, h2⟩
    · rw [if_pos h1, if_pos h2]
    · rw [if_neg (by omega), if_neg (by omega)]
      by_cases h3 : rest.length < lb - 128
      · rw [if_pos h3]
      · rw [if_neg h3, if_pos (by omega)]
  rw [parseOne_def, parseOneF_cons, if_neg htag, hrl]

/-- C1 witness: a short-form unit declaring length 5 with only two content
bytes left is rejected as truncated. -/
theorem claim_C1_witness :
    parseOne derOpts 10 [48, 5, 0, 0] = .error .truncated :=
  claim_C1_truncation_rejected derOpts 10 48 5 [0, 0] (by decide)
    (Or.inl (by decide))

/-- C2: under DER the parser rejects the indefinite-length octet 0x80 as
malformed, for every identifier octet (other than the unsupported high-tag
form) and every remainder; under BER it accepts it and locates the matching
end-of-contents marker: on the nested input
`30 80 30 80 00 00 05 00 00 00` the scan of the outer content finds the
matching marker after 6 bytes — skipping the end-of-contents marker that
belongs to the nested indefinite-length child — and the parse returns the
outer SEQUENCE spanning exactly those 6 bytes with the nested empty SEQUENCE
and a NULL as children, consuming all 10 bytes. -/
theorem claim_C2_indefinite_length (opts : ParserOptions)
    (depth ident : Nat) (rest : List Nat)
    (hder : opts.encoding = Encoding.DER) (htag : ident % 32 ≠ 31) :
    parseOne opts depth (ident :: 128 :: rest) = .error .malformed ∧
    eocScan [48, 128, 0, 0, 5, 0, 0, 0] = some 6 ∧
    parseOne berOpts 10 [48, 128, 48, 128, 0, 0, 5, 0, 0, 0] =
      .ok (Data.constructedData 16 Class.Universal [48, 128, 0, 0, 5, 0]
        [Data.constructedData 16 Class.Universal [] [],
         Data.plain 5 false Class.Universal []], 10) := by
  refine ⟨?_, rfl, rfl⟩
  have hrl : readLength opts 128 rest = .error .malformed := by
    unfold readLength
    rw [if_neg (by omega), if_pos rfl, if_pos hder]
  rw [parseOne_def, parseOneF_cons, if_neg htag, hrl]

/-- C2 witness: DER rejects `30 80` (constructed SEQUENCE with the
indefinite-length marker) as malformed. -/
theorem claim_C2_witness :
    parseOne derOpts 10 [48, 128] = .error .malformed ∧
    eocScan [48, 128, 0, 0, 5, 0, 0, 0] = some 6 :=
  ⟨(claim_C2_indefinite_length derOpts 10 48 [] rfl (by decide)).1,
   (claim_C2_indefinite_length derOpts 10 48 [] rfl (by decide)).2.1⟩

theorem varint_hi_zero : varint_hi 0 = [] := by
  rw [varint_hi]
  simp

/-- C6: decoding the OID content bytes `2A 03 04` (the body of
`06 03 2A 03 04`) yields the arcs 1, 2, 3, 4 under the first-two-arc folding
rule, and re-encoding those arcs yields exactly the original bytes. -/
theorem claim_C6_oid_roundtrip :
    oid_decode [42, 3, 4] = some [1, 2, 3, 4] ∧
    oid_encode [1, 2, 3, 4] = [42, 3, 4] := by
  constructor
  · rfl
  · norm_num [oid_encode, varint_encode, varint_hi_zero]

/-- C7: the UTCTime body `991231235959Z` parses to year 1999 (YY = 99 ≥ 50,
so 19YY), month 12, day 31, hour 23, minute 59, second 59, with
`is_nonutc = false`, and is valid under DER; the body `9912312359Z` without
seconds is valid under BER but invalid under DER. -/
theorem claim_C7_utctime_example :
    utc_do_parse true [57, 57, 49, 50, 51, 49, 50, 51, 53, 57, 53, 57, 90] =
      (⟨1999, 12, 31, 23, 59, 59, true, false, 0⟩, true) ∧
    (utc_do_parse false [57, 57, 49, 50, 51, 49, 50, 51, 53, 57, 90]).2 =
      true ∧
    (utc_do_parse true [57, 57, 49, 50, 51, 49, 50, 51, 53, 57, 90]).2 =
      false := by
  refine ⟨?_, rfl, rfl⟩
  rfl

/-- C10: the boolean conversion of src/asn1/data.hh line 203 dereferences the
first body byte with no length check, so its result is defined (`some`)
exactly when the body is non-empty; and a zero-length boolean body is legal
at the parser level under BER (the node is constructed with an empty body
view, whatever the recursion budget), so the out-of-bounds read is reachable
from well-formed parser output. -/
theorem claim_C10_boolean_get_partial (body : List Nat) (depth : Nat) :
    (BooleanData.get body = none ↔ body = []) ∧
    parseOne berOpts depth [1, 0] =
      .ok (Data.booleanData 1 Class.Universal [], 2) := by
  constructor
  · cases body <;> simp [BooleanData.get]
  · rfl

theorem varints_cont_cons (b : Nat) (rest : List Nat) :
    varints_cont (b :: rest) =
      if b < 128 then varints_minimal rest else varints_cont rest :=
  rfl

theorem varints_minimal_eq (l : List Nat) :
    varints_minimal l = ((l.head? != some 128) && varints_cont l) := by
  cases l with
  | nil => rfl
  | cons b rest =>
    show ((b != 128) && _) = _
    simp only [List.head?_cons]
    cases hb : (b == (128 : Nat)) <;> simp_all [bne, varints_cont_cons]

theorem varints_cont_eq_pairBad (l : List Nat) :
    varints_cont l = !pairBad l := by
  induction l with
  | nil => rfl
  | cons b rest ih =>
    cases rest with
    | nil =>
      show (if b < 128 then varints_minimal [] else varints_cont []) = _
      split <;> rfl
    | cons c rest2 =>
      show (if b < 128 then varints_minimal (c :: rest2)
        else varints_cont (c :: rest2)) = !pairBad (b :: c :: rest2)
      have hpb : pairBad (b :: c :: rest2) =
          ((decide (b < 128) && (c == 128)) || pairBad (c :: rest2)) := rfl
      rw [hpb, varints_minimal_eq, ih]
      by_cases hb : b < 128
      · simp [hb, bne, Bool.not_or]
      · simp [hb]

theorem varints_minimal_eq_not_hasBadGroupStart (l : List Nat) :
    varints_minimal l = !hasBadGroupStart l := by
  rw [varints_minimal_eq, varints_cont_eq_pairBad, hasBadGroupStart,
    Bool.not_or, bne]

/-- C5: OID validation fails exactly when the encoding is empty, the first
folded arc `arc0` is outside {0, 1, 2}, `arc1` exceeds 39 while `arc0` is 0
or 1, or a multi-byte base-128 varint group begins with the byte 0x80 (the
non-minimal encoding), the group starts being the position right after the
first content byte and every position following a terminal byte; in
particular a first byte of value 40 (folded as arc0 = 0, arc1 = 40) is
rejected whatever follows it. -/
theorem claim_C5_oid_validate_iff :
    oid_validate [] = false ∧
    (∀ b0 rest, oid_validate (b0 :: rest) = false ↔
      (2 < (oid_fold_decode b0).1 ∨
       ((oid_fold_decode b0).1 ≤ 1 ∧ 39 < (oid_fold_decode b0).2) ∨
       hasBadGroupStart rest = true)) ∧
    (∀ rest, oid_validate (40 :: rest) = false) := by
  refine ⟨rfl, ?_, fun rest => rfl⟩
  intro b0 rest
  show (decide ((oid_fold_decode b0).1 ≤ 2) &&
    (decide (2 ≤ (oid_fold_decode b0).1) ||
      decide ((oid_fold_decode b0).2 ≤ 39)) &&
    varints_minimal rest) = false ↔ _
  rw [varints_minimal_eq_not_hasBadGroupStart]
  rcases hfold : oid_fold_decode b0 with ⟨a0, a1⟩
  have h02 : a0 ≤ 2 := by
    unfold oid_fold_decode at hfold
    split_ifs at hfold <;> simp_all <;> omega
  cases hbad : hasBadGroupStart rest <;>
    simp [Bool.and_eq_false_iff, decide_eq_false_iff_not] <;> omega

theorem class_of_universal_iff (t : Nat) :
    class_of t = Class.Universal ↔ t < 64 := by
  unfold class_of
  constructor
  · intro h
    by_contra hlt
    rcases h64 : t / 64 with _ | _ | _ | n <;> rw [h64] at h <;>
      first
      | omega
      | simp at h
  · intro h
    have h0 : t / 64 = 0 := by omega
    rw [h0]

/-- C3: for every short-form TLV unit (single length octet `l` with the top
bit clear, so `l ≤ 127`) with at least `l` content bytes available, any
successful parse consumes exactly `1 + 1 + l` bytes and returns a node whose
body view has length exactly `l`; and the parse does succeed whenever the
unit is primitive (constructed bit clear) and is not a DER boolean of content
length other than 1 — the only primitive shape the parser rejects. -/
theorem claim_C3_short_form (opts : ParserOptions) (depth t l : Nat)
    (rest : List Nat) (htag : t % 32 ≠ 31) (hl : l ≤ 127)
    (hr : l ≤ rest.length) :
    (∀ d k, parseOne opts depth (t :: l :: rest) = .ok (d, k) →
      k = 2 + l ∧ d.get_body.length = l) ∧
    ((t / 32) % 2 = 0 →
      (opts.encoding = Encoding.DER → t = 1 → l = 1) →
      ∃ d, parseOne opts depth (t :: l :: rest) = .ok (d, 2 + l) ∧
        d.get_body.length = l) := by
  have hrl : readLength opts l rest = .ok (rest.take l, 2 + l) :=
    readLength_short opts l rest hl hr
  have hbl : (rest.take l).length = l := by
    rw [List.length_take]; omega
  constructor
  · intro d k heq
    rw [parseOne_def, parseOneF_cons, if_neg htag] at heq
    simp only [hrl] at heq
    split at heq
    · split at heq
      · exact absurd heq (by simp)
      · split at heq
        · exact absurd heq (by simp)
        · simp only [Except.ok.injEq, Prod.mk.injEq] at heq
          obtain ⟨h1, h2⟩ := heq
          refine ⟨h2.symm, ?_⟩
          rw [← h1]
          exact hbl
    · split at heq
      · exact absurd heq (by simp)
      · rename_i d0 hmp
        simp only [Except.ok.injEq, Prod.mk.injEq] at heq
        obtain ⟨h1, h2⟩ := heq
        refine ⟨h2.symm, ?_⟩
        rw [← h1, mkPrim_get_body _ _ _ _ _ _ hmp]
        exact hbl
  · intro hc hbool
    rw [parseOne_def, parseOneF_cons, if_neg htag]
    have hcon : (((t / 32) % 2 == 1) &&
        ((class_of t != Class.Universal) ||
          can_be_constructed_type (t % 32))) = false := by
      simp [hc]
    have harg : class_of t = Class.Universal →
        (((t / 32) % 2 == 1) : Bool) = false → t % 32 = UTBoolean →
        opts.encoding = Encoding.DER → (rest.take l).length = 1 := by
      intro hU _ htb hder
      rw [class_of_universal_iff] at hU
      rw [UTBoolean] at htb
      have ht1 : t = 1 := by omega
      have hl1 : l = 1 := hbool hder ht1
      omega
    obtain ⟨d0, hd0⟩ := mkPrim_ok opts (class_of t) ((t / 32) % 2 == 1)
      (t % 32) (rest.take l) harg
    simp only [hrl, hcon, Bool.false_eq_true, if_false, hd0]
    exact ⟨d0, rfl, by rw [mkPrim_get_body _ _ _ _ _ _ hd0]; exact hbl⟩

/-- C3 witness: a primitive OctetString `04 02 AB CD` under DER parses to a
node with a two-byte body, consuming four bytes. -/
theorem claim_C3_witness :
    ∃ d, parseOne derOpts 7 [4, 2, 171, 205] = .ok (d, 2 + 2) ∧
      d.get_body.length = 2 :=
  (claim_C3_short_form derOpts 7 4 2 [171, 205] (by decide) (by decide)
    (by decide)).2 (by decide) (by intro _ h; cases h)

theorem parseOneF_mkTLV_ite (fuel : Nat) (opts : ParserOptions) (depth : Nat)
    (t : Nat) (body : List Nat) :
    parseOneF (fuel + 1) opts depth (mkTLV t body) =
      (if t % 32 = 31 then .error .malformed
      else if ((t / 32) % 2 == 1) &&
          ((class_of t != Class.Universal) ||
            can_be_constructed_type (t % 32)) then
        if depth = 0 then .error .recursionLimit
        else
          match parseAllF fuel opts (depth - 1) body with
          | .error e => .error e
          | .ok es => .ok (Data.constructedData (t % 32) (class_of t) body es,
              1 + (encodeLen body.length).length + body.length)
      else
        match mkPrim opts (class_of t) ((t / 32) % 2 == 1) (t % 32) body with
        | .error e => .error e
        | .ok d =>
          .ok (d, 1 + (encodeLen body.length).length + body.length) :
        Except ParseError (Data × Nat)) := by
  rw [parseOneF_mkTLV]
  rcases depth with _ | d <;> rfl

theorem encodeLen_length_pos (n : Nat) : 0 < (encodeLen n).length := by
  unfold encodeLen
  split <;> simp

theorem mkNested_length (n : Nat) : 2 * n ≤ (mkNested n).length := by
  induction n with
  | zero => simp [mkNested]
  | succ m ih =>
    show 2 * (m + 1) ≤ (48 :: (encodeLen (mkNested m).length ++ mkNested m)).length
    have := encodeLen_length_pos (mkNested m).length
    simp only [List.length_cons, List.length_append]
    omega

theorem parseOneF_mkNested :
    ∀ (n fuel depth : Nat) (opts : ParserOptions), depth < n →
      3 * depth + 1 ≤ fuel →
      parseOneF fuel opts depth (mkNested n) = .error .recursionLimit := by
  intro n
  induction n with
  | zero => intro fuel depth opts hd _; exact absurd hd (by omega)
  | succ m ih =>
    intro fuel depth opts hd hf
    obtain ⟨f, rfl⟩ : ∃ f, fuel = f + 1 := ⟨fuel - 1, by omega⟩
    rw [show mkNested (m + 1) = mkTLV 48 (mkNested m) from rfl,
      parseOneF_mkTLV_ite, if_neg (by norm_num : ¬(48 % 32 = 31)),
      if_pos (by decide : (((48 / 32) % 2 == 1) &&
        ((class_of 48 != Class.Universal) ||
          can_be_constructed_type (48 % 32))) = true)]
    by_cases hdep : depth = 0
    · rw [if_pos hdep]
    · rw [if_neg hdep]
      obtain ⟨m2, rfl⟩ : ∃ m2, m = m2 + 1 := ⟨m - 1, by omega⟩
      obtain ⟨f2, rfl⟩ : ∃ f2, f = f2 + 1 := ⟨f - 1, by omega⟩
      have hone : parseOneF f2 opts (depth - 1)
          (48 :: (encodeLen (mkNested m2).length ++ mkNested m2)) =
          .error .recursionLimit := ih f2 (depth - 1) opts (by omega) (by omega)
      have hpa : parseAllF (f2 + 1) opts (depth - 1) (mkNested (m2 + 1)) =
          .error .recursionLimit := by
        rw [show mkNested (m2 + 1) =
          48 :: (encodeLen (mkNested m2).length ++ mkNested m2) from rfl,
          parseAllF_cons, hone]
      rw [hpa]

/-- C4: recursion into nested constructed values is bounded by the configured
depth budget: for every nesting count n exceeding the budget, parsing the
nested empty SEQUENCEs `mkNested n` terminates with the recursion-limit
error, an error distinct from the malformed and truncated errors. -/
theorem claim_C4_recursion_limit (opts : ParserOptions) (depth n : Nat)
    (h : depth < n) :
    parseOne opts depth (mkNested n) = .error .recursionLimit ∧
    ParseError.recursionLimit ≠ ParseError.malformed ∧
    ParseError.recursionLimit ≠ ParseError.truncated := by
  refine ⟨?_, by simp, by simp⟩
  rw [parseOne_def]
  apply parseOneF_mkNested n _ depth opts h
  have hlen := mkNested_length n
  omega

/-- C4 witness: 2000 nested empty SEQUENCEs under a budget of 1000 hit the
recursion limit. -/
theorem claim_C4_witness :
    parseOne derOpts 1000 (mkNested 2000) = .error .recursionLimit :=
  (claim_C4_recursion_limit derOpts 1000 2000 (by norm_num)).1

/-- C8: for every UTCTime body whatsoever, parsing the primitive universal
UTCTime unit `mkTLV 23 body` succeeds — field-level failures never abort the
enclosing parse — and the returned UTCTimeData node carries the best-effort
structured result of `utc_do_parse` together with the valid flag that is
false in exactly the failure cases of `utc_do_parse`; the caller queries the
flag, the parse itself never fails on the time contents. -/
theorem claim_C8_utctime_nonfatal (opts : ParserOptions) (depth : Nat)
    (body : List Nat) :
    parseOne opts depth (mkTLV 23 body) =
      .ok (Data.utcTimeData 23 Class.Universal body
        (opts.encoding == Encoding.DER)
        (utc_do_parse (opts.encoding == Encoding.DER) body).2
        (utc_do_parse (opts.encoding == Encoding.DER) body).1,
        1 + (encodeLen body.length).length + body.length) := by
  have hmp : mkPrim opts (class_of 23) ((23 / 32) % 2 == 1) (23 % 32) body =
      .ok (Data.utcTimeData 23 Class.Universal body
        (opts.encoding == Encoding.DER)
        (utc_do_parse (opts.encoding == Encoding.DER) body).2
        (utc_do_parse (opts.encoding == Encoding.DER) body).1) := rfl
  rw [parseOne_def, parseOneF_mkTLV, if_neg (by norm_num : ¬(23 % 32 = 31)),
    if_neg (by decide : ¬((((23 / 32) % 2 == 1) &&
      ((class_of 23 != Class.Universal) ||
        can_be_constructed_type (23 % 32))) = true)), hmp]

/-- C9: for a primitive universal Boolean unit, DER rejects any content
length other than exactly 1 as malformed; BER tolerates every length
(in particular lengths greater than 1) and returns the boolean node; and the
decoded value is true exactly when the first content byte is nonzero. -/
theorem claim_C9_boolean (opts : ParserOptions) (depth : Nat)
    (body : List Nat) (b : Nat) (bs : List Nat) :
    (opts.encoding = Encoding.DER → body.length ≠ 1 →
      parseOne opts depth (mkTLV 1 body) = .error .malformed) ∧
    (opts.encoding = Encoding.BER →
      parseOne opts depth (mkTLV 1 body) =
        .ok (Data.booleanData 1 Class.Universal body,
          1 + (encodeLen body.length).length + body.length)) ∧
    BooleanData.get (b :: bs) = some (b != 0) := by
  refine ⟨?_, ?_, rfl⟩
  · intro hder hlen
    have hmp : mkPrim opts (class_of 1) ((1 / 32) % 2 == 1) (1 % 32) body =
        .error .malformed := by
      unfold mkPrim
      rw [if_pos (by decide : ((class_of 1 == Class.Universal) &&
          !((1 / 32) % 2 == 1) && ((1 % 32) == UTBoolean)) = true),
        if_pos (by simp [hder, hlen])]
    rw [parseOne_def, parseOneF_mkTLV, if_neg (by norm_num : ¬(1 % 32 = 31)),
      if_neg (by decide : ¬((((1 / 32) % 2 == 1) &&
        ((class_of 1 != Class.Universal) ||
          can_be_constructed_type (1 % 32))) = true)), hmp]
  · intro hber
    have hmp : mkPrim opts (class_of 1) ((1 / 32) % 2 == 1) (1 % 32) body =
        .ok (Data.booleanData 1 Class.Universal body) := by
      unfold mkPrim
      rw [if_pos (by decide : ((class_of 1 == Class.Universal) &&
          !((1 / 32) % 2 == 1) && ((1 % 32) == UTBoolean)) = true),
        if_neg (by simp [hber])]
      rfl
    rw [parseOne_def, parseOneF_mkTLV, if_neg (by norm_num : ¬(1 % 32 = 31)),
      if_neg (by decide : ¬((((1 / 32) % 2 == 1) &&
        ((class_of 1 != Class.Universal) ||
          can_be_constructed_type (1 % 32))) = true)), hmp]

/-- C9 witness: DER rejects the two-byte boolean body `01 00`, BER parses it
to a boolean node, and the conversion of a first byte 255 is true. -/
theorem claim_C9_witness :
    parseOne derOpts 3 (mkTLV 1 [1, 0]) = .error .malformed ∧
    parseOne berOpts 3 (mkTLV 1 [1, 0]) =
      .ok (Data.booleanData 1 Class.Universal [1, 0],
        1 + (encodeLen ([1, 0] : List Nat).length).length +
          ([1, 0] : List Nat).length) ∧
    BooleanData.get (255 :: ([] : List Nat)) = some ((255 : Nat) != 0) :=
  ⟨(claim_C9_boolean derOpts 3 [1, 0] 255 []).1 rfl (by decide),
   (claim_C9_boolean berOpts 3 [1, 0] 255 []).2.1 rfl,
   (claim_C9_boolean berOpts 3 [1, 0] 255 []).2.2⟩

end Libseal
